import Mathlib

/-!
Verification of the Torn-Restock bot (`src/torncity-bot/bot.py`) against its
natural-language specification.

The development shallowly embeds the pure content of the script:

* `fetch_torn_data_with_retry` — the retry/backoff wrapper around the HTTP
  call.  The network is abstracted as a map from attempt index to the
  response observed on that attempt (`AttemptResponse`); parsed bodies are
  modelled as `JSON` values, and the Python expression
  `'error' in data and data['error']['code'] == 5` is embedded with Python's
  exception behaviour (`in` on a non-container raises `TypeError`,
  subscripting a non-dict raises `TypeError`, a missing key raises
  `KeyError`).  Real time is abstracted: `time.sleep (2 ** attempt)` is
  recorded as `2 ^ attempt` accumulated time units.
* `get_torn_stock_data` — the stock listing pipeline: build the record list,
  format each price with `f"${...:,.2f}"`, sort by acronym (Python's sort is
  a stable sort, embedded as `List.mergeSort`).
* `get_travel_item_info` — the travel item pipeline, which formats the
  provider's `market_price` field with `f"${...:,.0f}"`.
* `main` — the startup check on the `BOT_TOKEN` environment variable.

Currency amounts with two decimal places are represented exactly as a number
of cents (`Nat`), avoiding floating point; the `,` format specifier of
Python (thousands grouping) is embedded by `commafy`.
-/

namespace TornBot

/-- A parsed JSON value, as produced by `response.json()`.  Numbers are
integers here; the fetch layer only ever compares a number against the
literal `5`. -/
inductive JSON where
  | null
  | bool (b : Bool)
  | num (n : Int)
  | str (s : String)
  | arr (items : List JSON)
  | obj (fields : List (String × JSON))

/-- The Python exceptions that the embedded expressions can raise. -/
inductive PyExn where
  | typeError
  | keyError (k : String)
deriving DecidableEq, Repr

/-- First value bound to key `k` in a field list (Python dict lookup). -/
def JSON.lookup (k : String) : List (String × JSON) → Option JSON
  | [] => none
  | (k', v) :: rest => if k' = k then some v else JSON.lookup k rest

/-- Whether string `pat` occurs as a substring of `s` (Python `pat in s`). -/
def strContains (s pat : String) : Bool := (s.splitOn pat).length ≥ 2

/-- Python's `k in data` for a string key `k`: key membership for a dict,
element membership for a list, substring test for a string, and a
`TypeError` for any non-container value. -/
def pyContains (data : JSON) (k : String) : Except PyExn Bool :=
  match data with
  | .obj fields => .ok (JSON.lookup k fields).isSome
  | .arr items =>
    .ok (items.any fun j => match j with | .str s => s = k | _ => false)
  | .str s => .ok (strContains s k)
  | _ => .error .typeError

/-- Python's `data[k]` for a string key `k`: dict lookup (raising `KeyError`
when the key is absent), and a `TypeError` on every other value. -/
def pySubscript (data : JSON) (k : String) : Except PyExn JSON :=
  match data with
  | .obj fields =>
    match JSON.lookup k fields with
    | some v => .ok v
    | none => .error (.keyError k)
  | _ => .error .typeError

/-- Python's `v == n` for an integer literal `n` (`True == 1` in Python;
comparisons between unrelated types are `False`, never an error). -/
def pyEqNum (v : JSON) (n : Int) : Bool :=
  match v with
  | .num m => m = n
  | .bool b => (if b then (1 : Int) else 0) = n
  | _ => false

/-- The guard on line 44 of `bot.py`:
`'error' in data and data['error']['code'] == 5`, with Python's
short-circuiting `and` and Python's exception behaviour. -/
def isRateLimitErr (data : JSON) : Except PyExn Bool := do
  let hasErr ← pyContains data "error"
  if hasErr then
    let e ← pySubscript data "error"
    let c ← pySubscript e "code"
    pure (pyEqNum c 5)
  else
    pure false

/-- What one attempt of `requests.get(url, timeout=10)` plus
`raise_for_status()` plus `response.json()` can observe:
a transport-level failure (`requests.exceptions.RequestException`, which also
covers the bad-status case raised by `raise_for_status`), a body that is not
valid JSON (`json.JSONDecodeError`), or a parsed JSON body. -/
inductive AttemptResponse where
  | transportError (msg : String)
  | malformedBody
  | body (data : JSON)

/-- The dict `{"error": f"API Connection Error: Failed to connect to Torn API. ({e})"}`. -/
def connectionErrorDict (e : String) : JSON :=
  .obj [("error", .str ("API Connection Error: Failed to connect to Torn API. (" ++ e ++ ")"))]

/-- The dict `{"error": "API Response Error: Received invalid JSON from Torn."}`. -/
def parseErrorDict : JSON :=
  .obj [("error", .str "API Response Error: Received invalid JSON from Torn.")]

/-- The dict `{"error": "Torn API Error 5: Rate limit exceeded. Please wait a minute and try again."}`. -/
def rateLimitDict : JSON :=
  .obj [("error", .str "Torn API Error 5: Rate limit exceeded. Please wait a minute and try again.")]

/-- The dict `{"error": "Maximum retries reached due to an unknown issue."}`. -/
def maxRetriesDict : JSON :=
  .obj [("error", .str "Maximum retries reached due to an unknown issue.")]

/-- A provider error envelope `{"error": {"code": code, "error": msg}}`. -/
def apiErrorBody (code : Int) (msg : String) : JSON :=
  .obj [("error", .obj [("code", .num code), ("error", .str msg)])]

/-- The outcome of `fetch_torn_data_with_retry`: the returned value (or the
exception that escaped the function), the total simulated time slept in
backoff, and how many attempts (HTTP requests) were performed. -/
structure FetchResult where
  result : Except PyExn JSON
  totalSleep : Nat
  attemptsMade : Nat

/-- The body of the `for attempt in range(max_retries)` loop of
`fetch_torn_data_with_retry`, with `fuel = max_retries - attempt` iterations
remaining.  When the fuel runs out the loop has completed and the function
falls through to `return {"error": "Maximum retries reached ..."}`. -/
def fetchAux (responses : Nat → AttemptResponse) (maxRetries : Nat) :
    Nat → Nat → Nat → FetchResult
  | 0, attempt, slept => ⟨.ok maxRetriesDict, slept, attempt⟩
  | fuel + 1, attempt, slept =>
    match responses attempt with
    | .transportError e => ⟨.ok (connectionErrorDict e), slept, attempt + 1⟩
    | .malformedBody => ⟨.ok parseErrorDict, slept, attempt + 1⟩
    | .body data =>
      match isRateLimitErr data with
      | .error exn => ⟨.error exn, slept, attempt + 1⟩
      | .ok true =>
        if attempt < maxRetries - 1 then
          fetchAux responses maxRetries fuel (attempt + 1) (slept + 2 ^ attempt)
        else
          ⟨.ok rateLimitDict, slept, attempt + 1⟩
      | .ok false => ⟨.ok data, slept, attempt + 1⟩

/-- Embedding of `fetch_torn_data_with_retry(url, max_retries)` (bot.py lines 35–59).
The URL is abstracted away; `responses i` is what the request made on
attempt `i` observes. -/
def fetch_torn_data_with_retry (responses : Nat → AttemptResponse)
    (max_retries : Nat := 3) : FetchResult :=
  fetchAux responses max_retries max_retries 0 0

/-! ### Currency formatting

`f"${x:,.2f}"` and `f"${x:,.0f}"`: a dollar sign, the integer part with its
decimal digits grouped in threes from the right by commas, and (for `.2f`)
a dot followed by exactly two fractional digits.  Two-decimal amounts are
represented exactly as cents. -/

/-- Decimal digits of `n`, most significant first, accumulated onto `acc`.
The fuel argument only serves structural termination; `natDigits` supplies
enough of it. -/
def natDigitsGo : Nat → Nat → List Char → List Char
  | 0, _, acc => acc
  | fuel + 1, n, acc =>
    if n < 10 then Nat.digitChar n :: acc
    else natDigitsGo fuel (n / 10) (Nat.digitChar (n % 10) :: acc)

/-- Decimal digit characters of `n`, most significant first. -/
def natDigits (n : Nat) : List Char := natDigitsGo (n + 1) n []

/-- Insert a comma after every three characters of a reversed digit list
(so, counting from the right of the number). -/
def groupRev : List Char → List Char
  | a :: b :: c :: d :: rest => a :: b :: c :: ',' :: groupRev (d :: rest)
  | l => l

/-- Python thousands grouping: the decimal rendering of `n` with a comma after every third digit, counted from the right. -/
def commafy (n : Nat) : String :=
  String.mk ((groupRev (natDigits n).reverse).reverse)

/-- The two fractional digits of a cent remainder (`r` is taken mod 100). -/
def twoDecimals (r : Nat) : List Char :=
  [Nat.digitChar (r / 10 % 10), Nat.digitChar (r % 10)]

/-- The string `f"${x:,.2f}"` renders for the exact amount `cents` (in cents). -/
def formatUSD2 (cents : Nat) : String :=
  "$" ++ commafy (cents / 100) ++ "." ++ String.mk (twoDecimals (cents % 100))

/-- The string `f"${n:,.0f}"` renders for the whole-dollar amount `n`. -/
def formatUSD0 (n : Nat) : String :=
  "$" ++ commafy n

/-! ### The stock pipeline (`get_torn_stock_data`, bot.py lines 62–96) -/

/-- One value of the `stocks` dict of the provider payload, keeping only the
fields the code reads (each through `.get` with a default).  The current
price is in cents, representing the provider's two-decimal price exactly. -/
structure StockInfo where
  name : Option String
  acronym : Option String
  current_price : Option Nat
  benefit_available : Option Bool
deriving DecidableEq, Repr

/-- One entry of the stock list built by `get_torn_stock_data`. -/
structure StockRecord where
  id : String
  name : String
  acronym : String
  price : String
  benefit_available : Bool
deriving DecidableEq, Repr

/-- The dict appended for one `stock_id, stock_info` pair (lines 82–90). -/
def mkStockRecord (p : String × StockInfo) : StockRecord :=
  { id := p.1
    name := p.2.name.getD "N/A"
    acronym := p.2.acronym.getD "N/A"
    price := formatUSD2 (p.2.current_price.getD 0)
    benefit_available := p.2.benefit_available.getD false }

/-- Lines 79–92: build the record list in dict iteration order, then
`stock_list.sort(key=lambda x: x['acronym'])`.  Python's sort is a stable
sort by the key, embedded as the stable `List.mergeSort`. -/
def buildStockList (stocks : List (String × StockInfo)) : List StockRecord :=
  (stocks.map mkStockRecord).mergeSort fun a b => a.acronym ≤ b.acronym

/-- The shapes of dict that `fetch_torn_data_with_retry` can hand to
`get_torn_stock_data`: an `{"error": <string>}` dict produced by the fetch
wrapper itself, a payload whose top-level `error` member is the provider's
error envelope, or a payload carrying the `stocks` dict (already read
through `data.get('stocks', {})`). -/
inductive StockFetchOutcome where
  | fetchError (msg : String)
  | apiError (code : Int) (msg : String)
  | payload (stocks : List (String × StockInfo))
deriving DecidableEq, Repr

/-- A dict returned by `get_torn_stock_data`: `{"error": <string>}`,
the raw passthrough of a payload with an error envelope, or
`{"stocks": [...]}`. -/
inductive StockResult where
  | errStr (msg : String)
  | errObj (code : Int) (msg : String)
  | stocks (records : List StockRecord)
deriving DecidableEq, Repr

/-- Embedding of `get_torn_stock_data` after the fetch (bot.py lines 62–96).  The first
`if "error" in data: return data` (line 70) returns the fetched dict
unchanged whenever it has an `error` key — including a payload carrying the
provider's error envelope — so the second `if 'error' in data:` block
(lines 73–76), which would format `"Torn API Error {code}: {message}"`,
is unreachable. -/
def get_torn_stock_data (data : StockFetchOutcome) : StockResult :=
  match data with
  | .fetchError msg => .errStr msg
  | .apiError code msg => .errObj code msg
  | .payload stocks => .stocks (buildStockList stocks)

/-- The dict the dead branch at lines 73–76 would build:
`{"error": f"Torn API Error {code}: {message}"}`. -/
def formattedApiError (code : Int) (msg : String) : StockResult :=
  .errStr ("Torn API Error " ++ toString code ++ ": " ++ msg)

/-! ### The travel item pipeline (`get_travel_item_info`, bot.py lines 99–145) -/

/-- The map `TRAVEL_ITEM_MAP` (bot.py lines 19–24). -/
def TRAVEL_ITEM_MAP : List (String × List String) :=
  [("China", ["Panda Plushie", "Bottle of Beer"]),
   ("UAE (Dubai)", ["Gold Plated AK-47", "Bottle of Champagne"]),
   ("South Africa", ["African Lion Plushie", "Bottle of Minty Hot Chocolate"]),
   ("Japan", ["Kitten Plushie", "Bottle of Sake"])]

/-- The list `TARGET_ITEM_NAMES` (bot.py line 26): the flattened comprehension
`[item for sublist in TRAVEL_ITEM_MAP.values() for item in sublist]`. -/
def TARGET_ITEM_NAMES : List String :=
  (TRAVEL_ITEM_MAP.map Prod.snd).flatten

/-- One value of the `items` dict of the provider payload, keeping only the
fields the code reads.  `market_price` is the provider's item-wide average
market price (see the docstring of `get_travel_item_info`: the API "does not
provide real-time foreign market prices, so this uses the item's official
'market_price' (average)"); `sell_price` is the NPC shop price. -/
structure ItemInfo where
  name : Option String
  market_price : Option Nat
  sell_price : Option Nat
  rarity : Option String
deriving DecidableEq, Repr

/-- The dict stored in `target_items` for one matching item (lines 133–137). -/
structure TravelRecord where
  market_price : String
  sell_price : String
  rarity : String
deriving DecidableEq, Repr

/-- Lines 129–137: format the two price fields, keep the rarity. -/
def mkTravelRecord (info : ItemInfo) : TravelRecord :=
  { market_price := formatUSD0 (info.market_price.getD 0)
    sell_price := formatUSD0 (info.sell_price.getD 0)
    rarity := info.rarity.getD "N/A" }

/-- Python dict assignment `d[k] = v` on an association list: replace the
binding if the key is present, else append it. -/
def upsert (k : String) (v : TravelRecord) :
    List (String × TravelRecord) → List (String × TravelRecord)
  | [] => [(k, v)]
  | (k', v') :: rest =>
    if k' = k then (k, v) :: rest else (k', v') :: upsert k v rest

/-- First binding of `k` in an association list (Python dict lookup). -/
def lookupRecord (k : String) : List (String × TravelRecord) → Option TravelRecord
  | [] => none
  | (k', v) :: rest => if k' = k then some v else lookupRecord k rest

/-- The loop of lines 123–137: for each item (in dict iteration order), if
its name is one of the target travel items, store its formatted record in
`target_items` under the name. -/
def buildTargetItems : List ItemInfo → List (String × TravelRecord) →
    List (String × TravelRecord)
  | [], acc => acc
  | info :: rest, acc =>
    match info.name with
    | some n =>
      if n ∈ TARGET_ITEM_NAMES then
        buildTargetItems rest (upsert n (mkTravelRecord info) acc)
      else
        buildTargetItems rest acc
    | none => buildTargetItems rest acc

/-- An `items` entry for the Kitten Plushie whose `market_price` field
carries the provider's item-wide average of the two live listings 16000 and
15500, namely 15750 (the provider computes this average; the code never
sees the listings themselves). -/
def kittenAvgItem : ItemInfo :=
  { name := some "Kitten Plushie", market_price := some 15750,
    sell_price := some 14000, rarity := some "Common" }

/-- Same fetched-dict shapes as for the stock pipeline, with the `items`
dict in the payload case. -/
inductive TravelFetchOutcome where
  | fetchError (msg : String)
  | apiError (code : Int) (msg : String)
  | payload (items : List ItemInfo)
deriving DecidableEq, Repr

/-- A dict returned by `get_travel_item_info`. -/
inductive TravelResult where
  | errStr (msg : String)
  | errObj (code : Int) (msg : String)
  | items (target_items : List (String × TravelRecord))
deriving DecidableEq, Repr

/-- Embedding of `get_travel_item_info` after the fetch (bot.py lines 99–145).  As in
`get_torn_stock_data`, the first `if "error" in data: return data` makes the
formatted-error block unreachable. -/
def get_travel_item_info (data : TravelFetchOutcome) : TravelResult :=
  match data with
  | .fetchError msg => .errStr msg
  | .apiError code msg => .errObj code msg
  | .payload items =>
    let target_items := buildTargetItems items []
    if target_items.isEmpty then
      .errStr "Failed to find any matching travel item data. API structure may have changed or key lacks permission."
    else
      .items target_items

/-! ### Startup (`main`, bot.py lines 274–293) -/

/-- What `main()` does before any network activity: missing or empty
`BOT_TOKEN` aborts, otherwise the Discord front-end and the web server are
started. -/
inductive StartupOutcome where
  | missingTokenAbort
  | launched (token : String)
deriving DecidableEq, Repr

/-- Embedding of `main()` as a function of the `BOT_TOKEN` environment variable
(`os.getenv` yields `None` when absent; `if not BOT_TOKEN: return` fires on
`None` and on the empty string, both falsy in Python). -/
def main (bot_token : Option String) : StartupOutcome :=
  match bot_token with
  | none => .missingTokenAbort
  | some t => if t.isEmpty then .missingTokenAbort else .launched t

/-! ### Well-formed provider bodies

The guard `'error' in data and data['error']['code'] == 5` evaluates without
an exception exactly when the body is a dict whose `error` member, if any,
is itself a dict with a `code` key — or a string/list in which the check for
`'error'` comes up negative.  `bodySafe` captures this. -/

/-- Bodies on which the rate-limit guard evaluates without raising. -/
def bodySafe (data : JSON) : Bool :=
  match data with
  | .obj fields =>
    match JSON.lookup "error" fields with
    | none => true
    | some (.obj ef) => (JSON.lookup "code" ef).isSome
    | some _ => false
  | .str s => !strContains s "error"
  | .arr items => !(items.any fun j => match j with | .str s => s = "error" | _ => false)
  | _ => false

/-- Attempt outcomes that cannot make the fetch wrapper raise: transport
failures and malformed bodies are caught by the two `except` clauses, and a
safe JSON body passes the rate-limit guard without an exception. -/
def responseSafe : AttemptResponse → Bool
  | .transportError _ => true
  | .malformedBody => true
  | .body d => bodySafe d

/-! ### Specification-side predicates

These follow the wording of the specification (not the code) and are used
to state the claims about the rendered output and the market sell price. -/

/-- Whether `c` is a decimal digit character. -/
def isDigitChar (c : Char) : Bool := decide ('0' ≤ c) && decide (c ≤ '9')

/-- Split a character list on a separator (the separator is dropped;
adjacent separators yield empty groups). -/
def splitSep (sep : Char) : List Char → List (List Char)
  | [] => [[]]
  | c :: rest =>
    if c = sep then [] :: splitSep sep rest
    else
      match splitSep sep rest with
      | [] => [[c]]
      | g :: gs => (c :: g) :: gs

/-- The comma-separated groups of a thousands-grouped number: a first group
of one to three digits followed by groups of exactly three digits. -/
def chunksGrouped : List (List Char) → Bool
  | [] => false
  | first :: rest =>
    decide (1 ≤ first.length) && decide (first.length ≤ 3) &&
      first.all isDigitChar &&
      rest.all fun g => decide (g.length = 3) && g.all isDigitChar

/-- Whether `l` renders a thousands-separated non-negative decimal number. -/
def isThousandsGroupedDigits (l : List Char) : Bool :=
  chunksGrouped (splitSep ',' l)

/-- Specification-side shape of a stock price string: a dollar sign,
then the thousands-separated integer part, then a dot and exactly two
fractional digits. -/
def isDollarTwoDecimalString (s : String) : Bool :=
  match s.data with
  | c :: rest =>
    decide (c = '$') &&
      match splitSep '.' rest with
      | [intPart, fracPart] =>
        isThousandsGroupedDigits intPart && decide (fracPart.length = 2) &&
          fracPart.all isDigitChar
      | _ => false
  | _ => false


/-- A sample rate-limited body: `{"error": {"code": 5, "error": "Too many requests"}}`. -/
def sampleRateLimitBody : JSON :=
  .obj [("error", .obj [("code", .num 5), ("error", .str "Too many requests")])]

/-- A sample successful payload body: `{"stocks": {}}`. -/
def sampleStocksBody : JSON := .obj [("stocks", .obj [])]

/-- A sample stock entry priced at 941.53 (94153 cents). -/
def sampleStockInfo : StockInfo :=
  { name := some "Torn City Stock", acronym := some "TCS",
    current_price := some 94153, benefit_available := some false }

/-- The market sell price as the specification defines it: the minimum
listing price of the item's fetched quote set (spec §3, Market Quote and
Profit Record), absent when the quote is absent or empty. -/
def specMarketSell (listings : List Nat) : Option Nat := listings.min?

/-! ## Theorems -/

theorem fetchAux_attemptsMade_le (responses : Nat → AttemptResponse) (maxRetries : Nat) :
    ∀ fuel attempt slept,
      (fetchAux responses maxRetries fuel attempt slept).attemptsMade ≤ attempt + fuel := by
  intro fuel
  induction fuel with
  | zero => intro attempt slept; simp [fetchAux]
  | succ n ih =>
    intro attempt slept
    simp only [fetchAux]
    split
    · simp
    · simp
    · split
      · simp
      · split
        · exact le_trans (ih (attempt + 1) (slept + 2 ^ attempt)) (by omega)
        · simp
      · simp

theorem fetch_attemptsMade_le_budget (responses : Nat → AttemptResponse) (m : Nat) :
    (fetch_torn_data_with_retry responses m).attemptsMade ≤ m := by
  simpa [fetch_torn_data_with_retry] using fetchAux_attemptsMade_le responses m m 0 0

theorem data_getElem_append_left (a b : String) (i : Nat) (h : i < a.data.length) :
    (a ++ b).data[i]? = a.data[i]? := by
  rw [String.data_append]
  exact List.getElem?_append_left h

theorem append_append_ne (pref e suff t : String) (i : Nat)
    (hp : i < pref.data.length)
    (hne : pref.data[i]? ≠ t.data[i]?) : pref ++ e ++ suff ≠ t := by
  intro h
  apply hne
  have h0 := congrArg (fun s : String => s.data[i]?) h
  simp only at h0
  rw [data_getElem_append_left (pref ++ e) suff i
        (by rw [String.data_append, List.length_append]; omega),
      data_getElem_append_left pref e i hp] at h0
  exact h0

theorem connectionErrorDict_ne_maxRetriesDict (e : String) :
    connectionErrorDict e ≠ maxRetriesDict := by
  intro h
  simp only [connectionErrorDict, maxRetriesDict, JSON.obj.injEq, List.cons.injEq,
    Prod.mk.injEq, JSON.str.injEq, and_true, true_and] at h
  exact append_append_ne _ e ")" _ 0 (by decide) (by decide) h

theorem parseErrorDict_ne_connectionErrorDict (e : String) :
    parseErrorDict ≠ connectionErrorDict e := by
  intro h
  replace h := h.symm
  simp only [connectionErrorDict, parseErrorDict, JSON.obj.injEq, List.cons.injEq,
    Prod.mk.injEq, JSON.str.injEq, and_true, true_and] at h
  exact append_append_ne _ e ")" _ 4 (by decide) (by decide) h

theorem parseErrorDict_ne_maxRetriesDict : parseErrorDict ≠ maxRetriesDict := by
  simp [parseErrorDict, maxRetriesDict]

theorem rateLimitDict_ne_maxRetriesDict : rateLimitDict ≠ maxRetriesDict := by
  simp [rateLimitDict, maxRetriesDict]

theorem fetchAux_result_ne_max (responses : Nat → AttemptResponse) (maxRetries : Nat) :
    ∀ fuel attempt slept, attempt + fuel = maxRetries → 1 ≤ fuel →
      (fetchAux responses maxRetries fuel attempt slept).result ≠ .ok maxRetriesDict := by
  intro fuel
  induction fuel with
  | zero => intro attempt slept hsum h1; omega
  | succ n ih =>
    intro attempt slept hsum _
    simp only [fetchAux]
    split
    · simpa using connectionErrorDict_ne_maxRetriesDict _
    · simpa using parseErrorDict_ne_maxRetriesDict
    · split
      · simp
      · split
        · exact ih (attempt + 1) (slept + 2 ^ attempt) (by omega) (by omega)
        · simpa using rateLimitDict_ne_maxRetriesDict
      · rename_i data hrl
        intro hc
        simp only at hc
        simp only [Except.ok.injEq] at hc
        subst hc
        rw [show isRateLimitErr maxRetriesDict = Except.error PyExn.typeError from rfl] at hrl
        exact Except.noConfusion hrl

theorem bodySafe_isRateLimitErr (d : JSON) (h : bodySafe d = true) :
    ∃ b, isRateLimitErr d = .ok b := by
  cases d with
  | null => simp [bodySafe] at h
  | bool b => simp [bodySafe] at h
  | num n => simp [bodySafe] at h
  | str s =>
    simp only [bodySafe, Bool.not_eq_true'] at h
    exact ⟨false, by simp [isRateLimitErr, pyContains, h, bind, Except.bind,
      pure, Except.pure]⟩
  | arr items =>
    simp only [bodySafe, Bool.not_eq_true'] at h
    exact ⟨false, by simp [isRateLimitErr, pyContains, h, bind, Except.bind,
      pure, Except.pure]⟩
  | obj fields =>
    simp only [bodySafe] at h
    split at h
    · rename_i hl
      exact ⟨false, by simp [isRateLimitErr, pyContains, hl, bind, Except.bind,
        pure, Except.pure]⟩
    · rename_i ef hl
      rw [Option.isSome_iff_exists] at h
      obtain ⟨c, hc⟩ := h
      exact ⟨pyEqNum c 5, by simp [isRateLimitErr, pyContains, pySubscript, hl, hc,
        bind, Except.bind, pure, Except.pure, Functor.map, Except.map]⟩
    · simp at h

theorem fetchAux_safe_total (responses : Nat → AttemptResponse) (maxRetries : Nat)
    (hsafe : ∀ i, i < maxRetries → responseSafe (responses i) = true) :
    ∀ fuel attempt slept, attempt + fuel ≤ maxRetries →
      ∃ v, (fetchAux responses maxRetries fuel attempt slept).result = .ok v := by
  intro fuel
  induction fuel with
  | zero => intro attempt slept hle; exact ⟨maxRetriesDict, rfl⟩
  | succ n ih =>
    intro attempt slept hle
    have hA : attempt < maxRetries := by omega
    have hsafeA := hsafe attempt hA
    simp only [fetchAux]
    split
    · exact ⟨connectionErrorDict _, rfl⟩
    · exact ⟨parseErrorDict, rfl⟩
    · rename_i data hresp
      have hbody : bodySafe data = true := by
        rw [hresp] at hsafeA
        simpa [responseSafe] using hsafeA
      obtain ⟨b, hb⟩ := bodySafe_isRateLimitErr data hbody
      rw [hb]
      cases b with
      | false => exact ⟨data, rfl⟩
      | true =>
        show ∃ v, (if attempt < maxRetries - 1 then
            fetchAux responses maxRetries n (attempt + 1) (slept + 2 ^ attempt)
          else ⟨.ok rateLimitDict, slept, attempt + 1⟩).result = Except.ok v
        by_cases hlt : attempt < maxRetries - 1
        · rw [if_pos hlt]
          exact ih (attempt + 1) (slept + 2 ^ attempt) (by omega)
        · rw [if_neg hlt]
          exact ⟨rateLimitDict, rfl⟩

theorem isDigitChar_digitChar (d : Nat) (h : d < 10) :
    isDigitChar (Nat.digitChar d) = true := by
  have hall : ∀ e, e < 10 → isDigitChar (Nat.digitChar e) = true := by decide
  exact hall d h

theorem natDigitsGo_all_digit :
    ∀ fuel n (acc : List Char), (∀ c ∈ acc, isDigitChar c = true) →
      ∀ c ∈ natDigitsGo fuel n acc, isDigitChar c = true := by
  intro fuel
  induction fuel with
  | zero => intro n acc hacc; simpa [natDigitsGo] using hacc
  | succ m ih =>
    intro n acc hacc
    simp only [natDigitsGo]
    split
    · rename_i h10
      exact List.forall_mem_cons.mpr ⟨isDigitChar_digitChar n h10, hacc⟩
    · exact ih (n / 10) _ (List.forall_mem_cons.mpr
        ⟨isDigitChar_digitChar (n % 10) (Nat.mod_lt n (by decide)), hacc⟩)

theorem natDigits_all_digit (n : Nat) :
    ∀ c ∈ natDigits n, isDigitChar c = true :=
  natDigitsGo_all_digit (n + 1) n [] (by simp)

theorem natDigitsGo_length :
    ∀ fuel n (acc : List Char), acc.length ≤ (natDigitsGo fuel n acc).length := by
  intro fuel
  induction fuel with
  | zero => intro n acc; simp [natDigitsGo]
  | succ m ih =>
    intro n acc
    simp only [natDigitsGo]
    split
    · simp
    · exact le_trans (by simp) (ih (n / 10) (Nat.digitChar (n % 10) :: acc))

theorem natDigits_ne_nil (n : Nat) : natDigits n ≠ [] := by
  have h : 1 ≤ (natDigits n).length := by
    unfold natDigits
    simp only [natDigitsGo]
    split
    · simp
    · exact le_trans (by simp) (natDigitsGo_length n (n / 10) [Nat.digitChar (n % 10)])
  intro hc
  rw [hc] at h
  simp at h

theorem groupRev_mem : ∀ (l : List Char) (c : Char), c ∈ groupRev l → c ∈ l ∨ c = ','
  | [], c, h => by simp [groupRev] at h
  | [a], c, h => by
    rw [show groupRev [a] = [a] from rfl] at h
    exact Or.inl h
  | [a, b], c, h => by
    rw [show groupRev [a, b] = [a, b] from rfl] at h
    exact Or.inl h
  | [a, b, e], c, h => by
    rw [show groupRev [a, b, e] = [a, b, e] from rfl] at h
    exact Or.inl h
  | a :: b :: e :: d :: rest, c, h => by
    rw [show groupRev (a :: b :: e :: d :: rest)
          = a :: b :: e :: ',' :: groupRev (d :: rest) from rfl] at h
    simp only [List.mem_cons] at h ⊢
    rcases h with h | h | h | h | h
    · exact Or.inl (Or.inl h)
    · exact Or.inl (Or.inr (Or.inl h))
    · exact Or.inl (Or.inr (Or.inr (Or.inl h)))
    · exact Or.inr h
    · rcases groupRev_mem (d :: rest) c h with h2 | h2
      · rcases List.mem_cons.mp h2 with h3 | h3
        · exact Or.inl (Or.inr (Or.inr (Or.inr (Or.inl h3))))
        · exact Or.inl (Or.inr (Or.inr (Or.inr (Or.inr h3))))
      · exact Or.inr h2

theorem splitSep_ne_nil (sep : Char) : ∀ l : List Char, splitSep sep l ≠ []
  | [] => by simp [splitSep]
  | c :: rest => by
    simp only [splitSep]
    split
    · simp
    · split
      · simp
      · simp

theorem splitSep_of_not_mem (sep : Char) :
    ∀ l : List Char, sep ∉ l → splitSep sep l = [l]
  | [], _ => rfl
  | c :: rest, h => by
    have hc : ¬c = sep := fun hce => h (hce ▸ List.mem_cons_self c rest)
    have hrest : sep ∉ rest := fun hr => h (List.mem_cons_of_mem c hr)
    simp only [splitSep, if_neg hc, splitSep_of_not_mem sep rest hrest]

theorem splitSep_append (sep : Char) :
    ∀ (a b : List Char),
      splitSep sep (a ++ sep :: b) = splitSep sep a ++ splitSep sep b
  | [], b => by simp [splitSep]
  | c :: a, b => by
    rw [List.cons_append]
    by_cases hc : c = sep
    · simp only [splitSep, if_pos hc, splitSep_append sep a b]
      simp
    · simp only [splitSep, if_neg hc, splitSep_append sep a b]
      cases ha : splitSep sep a with
      | nil => exact absurd ha (splitSep_ne_nil sep a)
      | cons g gs => simp

theorem chunksGrouped_append_single (C : List (List Char)) (g : List Char)
    (hC : chunksGrouped C = true) (hg3 : g.length = 3)
    (hgd : ∀ c ∈ g, isDigitChar c = true) :
    chunksGrouped (C ++ [g]) = true := by
  cases C with
  | nil => simp [chunksGrouped] at hC
  | cons first rest =>
    show chunksGrouped (first :: (rest ++ [g])) = true
    simp only [chunksGrouped, Bool.and_eq_true] at hC ⊢
    obtain ⟨⟨⟨h1, h2⟩, h3⟩, h4⟩ := hC
    refine ⟨⟨⟨h1, h2⟩, h3⟩, ?_⟩
    rw [List.all_append, h4]
    simp only [List.all_cons, List.all_nil, Bool.and_true, Bool.true_and]
    simp only [Bool.and_eq_true, decide_eq_true_eq]
    exact ⟨hg3, List.all_eq_true.mpr hgd⟩

theorem digit_ne_comma {c : Char} (h : isDigitChar c = true) : c ≠ ',' := by
  intro hc
  subst hc
  simp [isDigitChar] at h

theorem digit_ne_dot {c : Char} (h : isDigitChar c = true) : c ≠ '.' := by
  intro hc
  subst hc
  simp [isDigitChar] at h

theorem comma_not_mem_of_digits {l : List Char}
    (h : ∀ c ∈ l, isDigitChar c = true) : ',' ∉ l :=
  fun hc => digit_ne_comma (h ',' hc) rfl

theorem chunksGrouped_small (l : List Char) (h1 : 1 ≤ l.length)
    (h3 : l.length ≤ 3) (hd : ∀ c ∈ l, isDigitChar c = true) :
    chunksGrouped [l] = true := by
  simp [chunksGrouped, h1, h3, List.all_eq_true.mpr hd]

theorem groupRev_grouped :
    ∀ rs : List Char, rs ≠ [] → (∀ c ∈ rs, isDigitChar c = true) →
      chunksGrouped (splitSep ',' (groupRev rs).reverse) = true
  | [], h, _ => absurd rfl h
  | [a], _, hd => by
    rw [show groupRev [a] = [a] from rfl]
    rw [splitSep_of_not_mem ',' _ (comma_not_mem_of_digits (by simpa using hd))]
    exact chunksGrouped_small _ (by simp) (by simp) (by simpa using hd)
  | [a, b], _, hd => by
    rw [show groupRev [a, b] = [a, b] from rfl]
    rw [splitSep_of_not_mem ',' _ (comma_not_mem_of_digits (by
      intro c hc; exact hd c (by simpa using List.mem_reverse.mp hc)))]
    exact chunksGrouped_small _ (by simp) (by simp) (by
      intro c hc; exact hd c (by simpa using List.mem_reverse.mp hc))
  | [a, b, e], _, hd => by
    rw [show groupRev [a, b, e] = [a, b, e] from rfl]
    rw [splitSep_of_not_mem ',' _ (comma_not_mem_of_digits (by
      intro c hc; exact hd c (by simpa using List.mem_reverse.mp hc)))]
    exact chunksGrouped_small _ (by simp) (by simp) (by
      intro c hc; exact hd c (by simpa using List.mem_reverse.mp hc))
  | a :: b :: e :: d :: rest, _, hd => by
    have hd' : ∀ c ∈ (d :: rest), isDigitChar c = true := by
      intro c hc
      exact hd c (by simp [List.mem_cons] at hc ⊢; tauto)
    have habc : ∀ c ∈ [e, b, a], isDigitChar c = true := by
      intro c hc
      rcases List.mem_cons.mp hc with rfl | hc
      · exact hd c (by simp)
      rcases List.mem_cons.mp hc with rfl | hc
      · exact hd c (by simp)
      rcases List.mem_cons.mp hc with rfl | hc
      · exact hd c (by simp)
      · simp at hc
    rw [show groupRev (a :: b :: e :: d :: rest)
          = a :: b :: e :: ',' :: groupRev (d :: rest) from rfl]
    rw [show (a :: b :: e :: ',' :: groupRev (d :: rest)).reverse
          = (groupRev (d :: rest)).reverse ++ ',' :: [e, b, a] from by simp]
    rw [splitSep_append, splitSep_of_not_mem ',' [e, b, a]
      (comma_not_mem_of_digits habc)]
    exact chunksGrouped_append_single _ _
      (groupRev_grouped (d :: rest) (by simp) hd') rfl habc

theorem commafy_grouped (n : Nat) :
    isThousandsGroupedDigits (commafy n).data = true := by
  rw [show (commafy n).data = (groupRev (natDigits n).reverse).reverse from rfl]
  exact groupRev_grouped (natDigits n).reverse
    (by simpa using natDigits_ne_nil n)
    (fun c hc => natDigits_all_digit n c (List.mem_reverse.mp hc))

theorem commafy_mem {n : Nat} {c : Char} (h : c ∈ (commafy n).data) :
    isDigitChar c = true ∨ c = ',' := by
  rw [show (commafy n).data = (groupRev (natDigits n).reverse).reverse from rfl] at h
  rcases groupRev_mem _ c (List.mem_reverse.mp h) with h2 | h2
  · exact Or.inl (natDigits_all_digit n c (List.mem_reverse.mp h2))
  · exact Or.inr h2

theorem dot_not_mem_commafy (n : Nat) : '.' ∉ (commafy n).data := by
  intro hc
  rcases commafy_mem hc with h | h
  · exact digit_ne_dot h rfl
  · simp at h

theorem twoDecimals_digits (r : Nat) :
    ∀ c ∈ twoDecimals r, isDigitChar c = true := by
  intro c hc
  rcases List.mem_cons.mp hc with rfl | hc
  · exact isDigitChar_digitChar _ (Nat.mod_lt _ (by decide))
  rcases List.mem_cons.mp hc with rfl | hc
  · exact isDigitChar_digitChar _ (Nat.mod_lt _ (by decide))
  · simp at hc

theorem formatUSD2_shape (cents : Nat) :
    isDollarTwoDecimalString (formatUSD2 cents) = true := by
  have hdata : (formatUSD2 cents).data
      = '$' :: ((commafy (cents / 100)).data ++ '.' :: twoDecimals (cents % 100)) := by
    simp [formatUSD2, String.data_append]
  unfold isDollarTwoDecimalString
  rw [hdata]
  simp only [decide_eq_true_eq]
  rw [splitSep_append '.' _ _,
    splitSep_of_not_mem '.' _ (dot_not_mem_commafy (cents / 100)),
    splitSep_of_not_mem '.' _ (fun hc => digit_ne_dot (twoDecimals_digits _ '.' hc) rfl)]
  simp [commafy_grouped, twoDecimals, List.all_eq_true.mpr (twoDecimals_digits (cents % 100))]
  exact ⟨isDigitChar_digitChar _ (Nat.mod_lt _ (by decide)),
    isDigitChar_digitChar _ (Nat.mod_lt _ (by decide))⟩

theorem rateLimit_body_ne_rateLimitDict {d : JSON}
    (r : isRateLimitErr d = .ok true) : rateLimitDict ≠ d := by
  intro hc
  rw [← hc] at r
  rw [show isRateLimitErr rateLimitDict = Except.error PyExn.typeError from rfl] at r
  exact Except.noConfusion r

/-- Claim C2: with `error.code = 5` bodies on attempts 1 and 2 and a
successful payload on attempt 3 (`max_retries = 3`), the fetch returns the
successful payload, sleeps `2^0 + 2^1` time units in total, and performs
exactly 3 attempts. -/
theorem fetch_rate_limited_twice_then_success
    (responses : Nat → AttemptResponse) (d0 d1 d2 : JSON)
    (h0 : responses 0 = .body d0) (r0 : isRateLimitErr d0 = .ok true)
    (h1 : responses 1 = .body d1) (r1 : isRateLimitErr d1 = .ok true)
    (h2 : responses 2 = .body d2) (r2 : isRateLimitErr d2 = .ok false) :
    fetch_torn_data_with_retry responses 3 = ⟨.ok d2, 2 ^ 0 + 2 ^ 1, 3⟩ := by
  simp [fetch_torn_data_with_retry, fetchAux, h0, r0, h1, r1, h2, r2]

theorem fetch_rate_limited_twice_then_success_witness :
    fetch_torn_data_with_retry
        (fun i => match i with
          | 0 => .body sampleRateLimitBody
          | 1 => .body sampleRateLimitBody
          | _ => .body sampleStocksBody) 3
      = ⟨.ok sampleStocksBody, 2 ^ 0 + 2 ^ 1, 3⟩ :=
  fetch_rate_limited_twice_then_success _ sampleRateLimitBody sampleRateLimitBody
    sampleStocksBody rfl rfl rfl rfl rfl rfl

/-- Claim C3: with `error.code = 5` bodies on all 3 attempts
(`max_retries = 3`), the fetch returns the canned rate-limit error dict —
which is none of the fetched payloads and not an exception — and in general
the number of attempts performed never exceeds the configured budget. -/
theorem fetch_rate_limited_exhausted
    (responses : Nat → AttemptResponse) (d0 d1 d2 : JSON)
    (h0 : responses 0 = .body d0) (r0 : isRateLimitErr d0 = .ok true)
    (h1 : responses 1 = .body d1) (r1 : isRateLimitErr d1 = .ok true)
    (h2 : responses 2 = .body d2) (r2 : isRateLimitErr d2 = .ok true) :
    fetch_torn_data_with_retry responses 3 = ⟨.ok rateLimitDict, 2 ^ 0 + 2 ^ 1, 3⟩ ∧
      rateLimitDict ≠ d0 ∧ rateLimitDict ≠ d1 ∧ rateLimitDict ≠ d2 ∧
      ∀ (resp : Nat → AttemptResponse) (m : Nat),
        (fetch_torn_data_with_retry resp m).attemptsMade ≤ m := by
  exact ⟨by simp [fetch_torn_data_with_retry, fetchAux, h0, r0, h1, r1, h2, r2],
    rateLimit_body_ne_rateLimitDict r0, rateLimit_body_ne_rateLimitDict r1,
    rateLimit_body_ne_rateLimitDict r2, fetch_attemptsMade_le_budget⟩

theorem fetch_rate_limited_exhausted_witness :
    fetch_torn_data_with_retry (fun _ => .body sampleRateLimitBody) 3
        = ⟨.ok rateLimitDict, 2 ^ 0 + 2 ^ 1, 3⟩ ∧
      rateLimitDict ≠ sampleRateLimitBody ∧
      rateLimitDict ≠ sampleRateLimitBody ∧
      rateLimitDict ≠ sampleRateLimitBody ∧
      ∀ (resp : Nat → AttemptResponse) (m : Nat),
        (fetch_torn_data_with_retry resp m).attemptsMade ≤ m :=
  fetch_rate_limited_exhausted _ sampleRateLimitBody sampleRateLimitBody
    sampleRateLimitBody rfl rfl rfl rfl rfl rfl

/-- Claim C4: a transport-level failure on an attempt makes the fetch return
the connection-error dict at once: no sleep is added and no further attempt
is made (the first conjunct states this from attempt 0, the second from an
arbitrary reached attempt). -/
theorem fetch_transport_error_returns_immediately :
    (∀ (responses : Nat → AttemptResponse) (maxRetries : Nat) (e : String),
        1 ≤ maxRetries → responses 0 = .transportError e →
        fetch_torn_data_with_retry responses maxRetries =
          ⟨.ok (connectionErrorDict e), 0, 1⟩) ∧
    (∀ (responses : Nat → AttemptResponse)
        (maxRetries fuel attempt slept : Nat) (e : String),
        responses attempt = .transportError e →
        fetchAux responses maxRetries (fuel + 1) attempt slept =
          ⟨.ok (connectionErrorDict e), slept, attempt + 1⟩) := by
  constructor
  · intro responses maxRetries e hm h0
    obtain ⟨k, rfl⟩ : ∃ k, maxRetries = k + 1 := ⟨maxRetries - 1, by omega⟩
    simp [fetch_torn_data_with_retry, fetchAux, h0]
  · intro responses maxRetries fuel attempt slept e h
    simp [fetchAux, h]

theorem fetch_transport_error_returns_immediately_witness :
    fetch_torn_data_with_retry (fun _ => .transportError "Connection refused") 3
      = ⟨.ok (connectionErrorDict "Connection refused"), 0, 1⟩ :=
  fetch_transport_error_returns_immediately.1 _ 3 "Connection refused"
    (by decide) rfl

/-- Claim C5: a malformed (non-JSON) body on an attempt makes the fetch
return the parse-error dict at once — no sleep, no further attempt — and
this dict differs from every connection-error dict. -/
theorem fetch_malformed_body_returns_immediately :
    (∀ (responses : Nat → AttemptResponse) (maxRetries : Nat),
        1 ≤ maxRetries → responses 0 = .malformedBody →
        fetch_torn_data_with_retry responses maxRetries =
          ⟨.ok parseErrorDict, 0, 1⟩) ∧
    (∀ (responses : Nat → AttemptResponse) (maxRetries fuel attempt slept : Nat),
        responses attempt = .malformedBody →
        fetchAux responses maxRetries (fuel + 1) attempt slept =
          ⟨.ok parseErrorDict, slept, attempt + 1⟩) ∧
    (∀ e, parseErrorDict ≠ connectionErrorDict e) := by
  refine ⟨?_, ?_, parseErrorDict_ne_connectionErrorDict⟩
  · intro responses maxRetries hm h0
    obtain ⟨k, rfl⟩ : ∃ k, maxRetries = k + 1 := ⟨maxRetries - 1, by omega⟩
    simp [fetch_torn_data_with_retry, fetchAux, h0]
  · intro responses maxRetries fuel attempt slept h
    simp [fetchAux, h]

theorem fetch_malformed_body_returns_immediately_witness :
    fetch_torn_data_with_retry (fun _ => .malformedBody) 3
      = ⟨.ok parseErrorDict, 0, 1⟩ :=
  fetch_malformed_body_returns_immediately.1 _ 3 (by decide) rfl

/-- Claim C6 counterexample: a provider response whose body is valid JSON
but not a dict — here the number `7` — makes `'error' in data` raise a
`TypeError` that neither `except` clause catches, so an exception escapes
the fetch boundary instead of a value being returned. -/
theorem fetch_nonobject_body_uncaught_exception :
    (fetch_torn_data_with_retry (fun _ => .body (.num 7)) 3).result
      = .error .typeError := rfl

/-- Claim C6 (amended): for every response sequence whose parsed bodies are
well-shaped — a dict whose `error` member, when present, is a dict with a
`code` key (or a string/list not containing `'error'`) — the fetch returns
a value on every input: all failure paths are represented as data and no
exception escapes. -/
theorem fetch_total_on_safe_bodies
    (responses : Nat → AttemptResponse) (maxRetries : Nat)
    (hsafe : ∀ i, i < maxRetries → responseSafe (responses i) = true) :
    ∃ v, (fetch_torn_data_with_retry responses maxRetries).result = .ok v := by
  simpa [fetch_torn_data_with_retry] using
    fetchAux_safe_total responses maxRetries hsafe maxRetries 0 0 (by omega)

theorem fetch_total_on_safe_bodies_witness :
    ∃ v, (fetch_torn_data_with_retry (fun _ => .body sampleStocksBody) 3).result
      = .ok v :=
  fetch_total_on_safe_bodies _ 3 (by decide)

/-- Claim C9: for `max_retries ≥ 1` every invocation returns from inside the
attempt loop, so the fallback `{"error": "Maximum retries reached ..."}`
after the loop is never the result. -/
theorem fetch_fallback_return_unreachable
    (responses : Nat → AttemptResponse) (maxRetries : Nat) (h : 1 ≤ maxRetries) :
    (fetch_torn_data_with_retry responses maxRetries).result ≠ .ok maxRetriesDict := by
  simpa [fetch_torn_data_with_retry] using
    fetchAux_result_ne_max responses maxRetries maxRetries 0 0 (by omega) h

theorem fetch_fallback_return_unreachable_witness :
    (fetch_torn_data_with_retry (fun _ => .malformedBody) 1).result
      ≠ .ok maxRetriesDict :=
  fetch_fallback_return_unreachable _ 1 (by decide)

theorem buildStockList_sorted (stocks : List (String × StockInfo)) :
    List.Pairwise (fun a b : StockRecord => a.acronym ≤ b.acronym)
      (buildStockList stocks) := by
  have h := @List.sorted_mergeSort StockRecord
    (fun a b : StockRecord => decide (a.acronym ≤ b.acronym))
    (fun a b c hab hbc => by
      simp only [decide_eq_true_eq] at hab hbc ⊢
      exact le_trans hab hbc)
    (fun a b => by
      simp only [Bool.or_eq_true, decide_eq_true_eq]
      exact le_total a.acronym b.acronym)
    (stocks.map mkStockRecord)
  exact h.imp fun hab => by simpa using hab

theorem buildStockList_mem {stocks : List (String × StockInfo)} {r : StockRecord}
    (h : r ∈ buildStockList stocks) : ∃ p ∈ stocks, r = mkStockRecord p := by
  rw [buildStockList, List.mem_mergeSort] at h
  obtain ⟨p, hp, hr⟩ := List.mem_map.mp h
  exact ⟨p, hp, hr.symm⟩

/-- Claim C10: on every successful result of `get_torn_stock_data` the stock
list is sorted ascending by acronym, and every record's price field is a
dollar sign followed by the thousands-separated price with exactly two
decimal places. -/
theorem stock_success_sorted_and_price_formatted
    (data : StockFetchOutcome) (records : List StockRecord)
    (h : get_torn_stock_data data = .stocks records) :
    List.Pairwise (fun a b : StockRecord => a.acronym ≤ b.acronym) records ∧
      ∀ r ∈ records, isDollarTwoDecimalString r.price = true := by
  cases data with
  | fetchError m => exact absurd h (by simp [get_torn_stock_data])
  | apiError c m => exact absurd h (by simp [get_torn_stock_data])
  | payload stocks =>
    simp only [get_torn_stock_data, StockResult.stocks.injEq] at h
    subst h
    refine ⟨buildStockList_sorted stocks, fun r hr => ?_⟩
    obtain ⟨p, hp, rfl⟩ := buildStockList_mem hr
    exact formatUSD2_shape _

theorem stock_success_sorted_and_price_formatted_witness :
    List.Pairwise (fun a b : StockRecord => a.acronym ≤ b.acronym)
        (buildStockList [("1", sampleStockInfo)]) ∧
      ∀ r ∈ buildStockList [("1", sampleStockInfo)],
        isDollarTwoDecimalString r.price = true :=
  stock_success_sorted_and_price_formatted (.payload [("1", sampleStockInfo)]) _ rfl

/-- Claim C7 counterexample: a provider-reported error with code 2 is
returned as the raw error envelope (`errObj`), not as the formatted
structured message the unreachable lines 73–76 would build; and the
insufficient-access code 16 receives the identical raw passthrough with no
permission-scope hint added anywhere. -/
theorem stock_api_error_passthrough_counterexample :
    get_torn_stock_data (.apiError 2 "Incorrect ID") = .errObj 2 "Incorrect ID" ∧
      get_torn_stock_data (.apiError 2 "Incorrect ID")
        ≠ formattedApiError 2 "Incorrect ID" ∧
      get_torn_stock_data (.apiError 16 "Access level of this key is not high enough")
        = .errObj 16 "Access level of this key is not high enough" := by
  refine ⟨rfl, ?_, rfl⟩
  simp [get_torn_stock_data, formattedApiError]

/-- Claim C7 (amended): a provider-reported error code other than the
rate-limit code 5 is never retried — the fetch returns the envelope after a
single attempt with no backoff — and `get_torn_stock_data` passes every such
envelope through to the caller unchanged: the branch that would format
`"Torn API Error {code}: {message}"` is dead code, and no branch
special-cases the insufficient-access code. -/
theorem stock_api_error_raw_passthrough_no_retry
    (responses : Nat → AttemptResponse) (maxRetries : Nat) (code : Int)
    (msg : String) (hm : 1 ≤ maxRetries) (hcode : code ≠ 5)
    (h0 : responses 0 = .body (apiErrorBody code msg)) :
    fetch_torn_data_with_retry responses maxRetries
        = ⟨.ok (apiErrorBody code msg), 0, 1⟩ ∧
      ∀ (c : Int) (m : String), get_torn_stock_data (.apiError c m) = .errObj c m := by
  constructor
  · have hrl : isRateLimitErr (apiErrorBody code msg) = .ok false := by
      simp [isRateLimitErr, apiErrorBody, pyContains, pySubscript, JSON.lookup,
        pyEqNum, bind, Except.bind, pure, Except.pure, Functor.map, Except.map, hcode]
    obtain ⟨k, rfl⟩ : ∃ k, maxRetries = k + 1 := ⟨maxRetries - 1, by omega⟩
    simp [fetch_torn_data_with_retry, fetchAux, h0, hrl]
  · intro c m
    rfl

theorem stock_api_error_raw_passthrough_no_retry_witness :
    fetch_torn_data_with_retry (fun _ => .body (apiErrorBody 2 "Incorrect ID")) 3
        = ⟨.ok (apiErrorBody 2 "Incorrect ID"), 0, 1⟩ ∧
      ∀ (c : Int) (m : String), get_torn_stock_data (.apiError c m) = .errObj c m :=
  stock_api_error_raw_passthrough_no_retry _ 3 2 "Incorrect ID"
    (by decide) (by decide) rfl

/-- Claim C8: a missing `BOT_TOKEN` environment variable is fatal at
startup — `main` returns before the chat front-end is started. -/
theorem main_missing_token_aborts : main none = .missingTokenAbort := rfl

theorem lookupRecord_upsert (k k' : String) (v : TravelRecord)
    (l : List (String × TravelRecord)) :
    lookupRecord k' (upsert k v l) = if k' = k then some v else lookupRecord k' l := by
  induction l with
  | nil =>
    by_cases h : k' = k
    · simp [upsert, lookupRecord, h]
    · have h2 : ¬k = k' := fun hh => h hh.symm
      simp [upsert, lookupRecord, h, h2]
  | cons p rest ih =>
    obtain ⟨k0, v0⟩ := p
    by_cases h0 : k0 = k
    · subst h0
      by_cases h : k' = k0
      · simp [upsert, lookupRecord, h]
      · have h2 : ¬k0 = k' := fun hh => h hh.symm
        simp [upsert, lookupRecord, h, h2]
    · by_cases h : k0 = k'
      · subst h
        simp [upsert, lookupRecord, h0, fun hh : k0 = k => h0 hh]
      · simp [upsert, lookupRecord, h0, h, ih]

theorem buildTargetItems_lookup :
    ∀ (items : List ItemInfo) (acc : List (String × TravelRecord))
      (name : String) (rec : TravelRecord),
      lookupRecord name (buildTargetItems items acc) = some rec →
      (∃ info ∈ items, info.name = some name ∧ rec = mkTravelRecord info) ∨
        lookupRecord name acc = some rec
  | [], acc, name, rec, h => Or.inr h
  | info :: rest, acc, name, rec, h => by
    cases hn : info.name with
    | none =>
      rw [show buildTargetItems (info :: rest) acc = buildTargetItems rest acc from by
        simp [buildTargetItems, hn]] at h
      rcases buildTargetItems_lookup rest acc name rec h with ⟨i, hi, hh⟩ | h2
      · exact Or.inl ⟨i, List.mem_cons_of_mem _ hi, hh⟩
      · exact Or.inr h2
    | some n =>
      by_cases ht : n ∈ TARGET_ITEM_NAMES
      · rw [show buildTargetItems (info :: rest) acc
            = buildTargetItems rest (upsert n (mkTravelRecord info) acc) from by
          simp [buildTargetItems, hn, ht]] at h
        rcases buildTargetItems_lookup rest _ name rec h with ⟨i, hi, hh⟩ | h2
        · exact Or.inl ⟨i, List.mem_cons_of_mem _ hi, hh⟩
        · rw [lookupRecord_upsert] at h2
          by_cases hname : name = n
          · subst hname
            rw [if_pos rfl] at h2
            exact Or.inl ⟨info, List.mem_cons_self _ _,
              hn, (Option.some.inj h2).symm⟩
          · rw [if_neg hname] at h2
            exact Or.inr h2
      · rw [show buildTargetItems (info :: rest) acc = buildTargetItems rest acc from by
          simp [buildTargetItems, hn, ht]] at h
        rcases buildTargetItems_lookup rest acc name rec h with ⟨i, hi, hh⟩ | h2
        · exact Or.inl ⟨i, List.mem_cons_of_mem _ hi, hh⟩
        · exact Or.inr h2

/-- Claim C1 counterexample: with live listings 16000 and 15500 for the
Kitten Plushie, the provider's `market_price` field carries their average
15750, and the pipeline renders exactly that — `"$15,750"` — while the
minimum listing price of the quote set is 15500, rendering `"$15,500"`.
The derived market price is therefore the average, not the minimum. -/
theorem travel_market_price_not_min_counterexample :
    get_travel_item_info (.payload [kittenAvgItem])
        = .items [("Kitten Plushie",
            { market_price := "$15,750", sell_price := "$14,000",
              rarity := "Common" })] ∧
      (15750 : Nat) = (16000 + 15500) / 2 ∧
      specMarketSell [16000, 15500] = some 15500 ∧
      formatUSD0 15500 = "$15,500" ∧
      ("$15,750" : String) ≠ "$15,500" := by
  exact ⟨rfl, rfl, rfl, rfl, by decide⟩

/-- Claim C1 (amended): every record produced by `get_travel_item_info`
takes its market price verbatim from the provider's `market_price` field —
the item-wide average, per the function's own docstring — dollar-formatted
with no decimals.  The code fetches no per-listing quote data at all, so no
minimum of listings is ever computed. -/
theorem travel_market_price_is_provider_average_field
    (items : List ItemInfo) (target_items : List (String × TravelRecord))
    (name : String) (rec : TravelRecord)
    (hres : get_travel_item_info (.payload items) = .items target_items)
    (hlook : lookupRecord name target_items = some rec) :
    ∃ info ∈ items, info.name = some name ∧
      rec.market_price = formatUSD0 (info.market_price.getD 0) := by
  simp only [get_travel_item_info] at hres
  split at hres
  · exact absurd hres (by simp)
  · simp only [TravelResult.items.injEq] at hres
    subst hres
    rcases buildTargetItems_lookup items [] name rec hlook with ⟨i, hi, hname, hrec⟩ | h2
    · exact ⟨i, hi, hname, by subst hrec; rfl⟩
    · simp [lookupRecord] at h2

theorem travel_market_price_is_provider_average_field_witness :
    ∃ info ∈ [kittenAvgItem], info.name = some "Kitten Plushie" ∧
      ({ market_price := "$15,750", sell_price := "$14,000",
         rarity := "Common" } : TravelRecord).market_price
        = formatUSD0 (info.market_price.getD 0) :=
  travel_market_price_is_provider_average_field [kittenAvgItem] _
    "Kitten Plushie" _ rfl rfl

end TornBot
